import Mathlib

/-!
Shallow embedding of src/js/diagrams.js: five diagram controller classes
(FlowchartController, SequenceController, InteractiveDiagramController,
StateDiagramController, RefrigerationCycleController) that toggle CSS
classes and inline styles on DOM elements.

DOM elements are modelled by small structures carrying exactly the data the
code touches: a class list (classList semantics: add appends when absent,
remove filters), inline style slots, and the data attributes the code reads.
Element references held by a controller are indices into the controller's
discovered element list (membership is fixed at construction).  A method
that in JS can throw a TypeError (member access on a null container) is
embedded in Except String; all other methods are total functions.
-/

namespace Diagrams

/-- classList.add: appends the class when absent, otherwise no change. -/
def classAdd (c : String) (l : List String) : List String :=
  if c ∈ l then l else l ++ [c]

/-- classList.remove: removes every occurrence of the class. -/
def classRemove (c : String) (l : List String) : List String :=
  l.filter (fun x => x ≠ c)

/-- Replace the element at index i by f applied to it; out of range leaves
the list unchanged (mirrors indexing into a JS array with a guard). -/
def modifyAt (i : Nat) (f : α → α) (l : List α) : List α :=
  match l.get? i with
  | some x => l.set i (f x)
  | none => l

/-- JS strict equality between getAttribute results (string or null) and an
array lookup (string or undefined): true only when both are strings and
equal; null === undefined, null === s and s === undefined are all false. -/
def strictEqAttr (a b : Option String) : Bool :=
  match a, b with
  | some x, some y => x == y
  | _, _ => false

/-- First index whose element satisfies the predicate (Array.prototype.find,
with the found element represented by its index). -/
def listFindIdx (p : α → Bool) : List α → Option Nat
  | [] => none
  | x :: xs => if p x then some 0 else (listFindIdx p xs).map (· + 1)

-- ========================================
-- FlowchartController
-- ========================================

/-- A .flowchart-node element: its class list and the text content of its
.flowchart-label child, when present. -/
structure FlowNode where
  classes : List String
  label : Option String
  deriving Repr, DecidableEq

/-- State of a FlowchartController instance. svg records whether
document.getElementById found the container; listeners counts attached
click listeners. -/
structure FlowchartController where
  svg : Bool
  nodes : List FlowNode
  connections : List (List String)
  currentStep : Nat
  listeners : Nat
  deriving Repr, DecidableEq

/-- Constructor plus init: absent container returns before discovery, so
nothing is collected and no listener is attached; otherwise nodes and
connections are discovered, one click listener per node is attached and
setupAnimations adds the signal-animated class to every connection. -/
def FlowchartController.construct (found : Bool) (docNodes : List FlowNode)
    (docConns : List (List String)) : FlowchartController :=
  if found then
    { svg := true
      nodes := docNodes
      connections := docConns.map (classAdd "signal-animated")
      currentStep := 0
      listeners := docNodes.length }
  else
    { svg := false, nodes := [], connections := [], currentStep := 0, listeners := 0 }

/-- highlightStep: removes selected and node-highlighted from every node,
then adds both to the node at the given index when it exists, and records
the index as currentStep unconditionally. -/
def FlowchartController.highlightStep (index : Nat) (c : FlowchartController) :
    FlowchartController :=
  let nodes1 := c.nodes.map fun n =>
    { n with classes := classRemove "node-highlighted" (classRemove "selected" n.classes) }
  let nodes2 :=
    modifyAt index (fun n =>
      { n with classes := classAdd "node-highlighted" (classAdd "selected" n.classes) }) nodes1
  { c with nodes := nodes2, currentStep := index }

/-- The interval argument of setInterval in playAnimation. -/
def FlowchartController.playAnimationInterval : Nat := 1000

/-- One interval tick of playAnimation: when the step counter has passed the
last node the interval is cleared (second component false), otherwise the
step is highlighted and the counter advances. -/
def FlowchartController.playTick (step : Nat) (c : FlowchartController) :
    FlowchartController × Bool :=
  if c.nodes.length ≤ step then (c, false)
  else (FlowchartController.highlightStep step c, true)

/-- State of the playAnimation loop after t interval ticks: controller
state, the step counter, and whether the interval is still scheduled. -/
def FlowchartController.playRun (c : FlowchartController) :
    Nat → FlowchartController × Nat × Bool
  | 0 => (c, 0, true)
  | t + 1 =>
    let r := FlowchartController.playRun c t
    if r.2.2 then
      let s := FlowchartController.playTick r.2.1 r.1
      (s.1, r.2.1 + 1, s.2)
    else r

/-- reset: clears currentStep and removes the highlight classes everywhere. -/
def FlowchartController.reset (c : FlowchartController) : FlowchartController :=
  { c with
    currentStep := 0
    nodes := c.nodes.map fun n =>
      { n with classes := classRemove "node-highlighted" (classRemove "selected" n.classes) } }

/-- Property form: node i, and no other node, carries both highlight
classes. -/
def FCExactlyHighlighted (c : FlowchartController) (i : Nat) : Prop :=
  ∀ j node, c.nodes.get? j = some node →
    (("selected" ∈ node.classes) ↔ j = i) ∧ (("node-highlighted" ∈ node.classes) ↔ j = i)

-- ========================================
-- SequenceController
-- ========================================

/-- A .sequence-message element: inline style slots touched by the code and
the text of the following sibling when that sibling has class
sequence-label. The empty string models an unset inline style. -/
structure SeqMessage where
  opacity : String
  stroke : String
  strokeWidth : String
  siblingLabel : Option String
  deriving Repr, DecidableEq

/-- State of a SequenceController instance; listeners counts attached
mouseenter plus mouseleave listeners. -/
structure SequenceController where
  svg : Bool
  messages : List SeqMessage
  actors : Nat
  listeners : Nat
  deriving Repr, DecidableEq

/-- Constructor plus init: absent container returns before discovery;
otherwise messages and actors are discovered and two hover listeners are
attached per message. -/
def SequenceController.construct (found : Bool) (docMsgs : List SeqMessage)
    (docActors : Nat) : SequenceController :=
  if found then
    { svg := true, messages := docMsgs, actors := docActors,
      listeners := 2 * docMsgs.length }
  else
    { svg := false, messages := [], actors := 0, listeners := 0 }

/-- The interval argument of setInterval in playSequence. -/
def SequenceController.playSequenceInterval : Nat := 800

/-- One interval tick of playSequence: past the last message the interval is
cleared; otherwise every message gets opacity 1 when its position equals the
current index and 0.3 otherwise, and the index advances. -/
def SequenceController.playTick (index : Nat) (c : SequenceController) :
    SequenceController × Bool :=
  if c.messages.length ≤ index then (c, false)
  else
    ({ c with
        messages := (c.messages.enum).map fun mi =>
          { mi.2 with opacity := if mi.1 = index then "1" else "0.3" } }, true)

/-- State of the playSequence loop after t interval ticks. -/
def SequenceController.playRun (c : SequenceController) :
    Nat → SequenceController × Nat × Bool
  | 0 => (c, 0, true)
  | t + 1 =>
    let r := SequenceController.playRun c t
    if r.2.2 then
      let s := SequenceController.playTick r.2.1 r.1
      (s.1, r.2.1 + 1, s.2)
    else r

/-- reset: sets opacity 1 on every message. -/
def SequenceController.reset (c : SequenceController) : SequenceController :=
  { c with messages := c.messages.map fun m => { m with opacity := "1" } }

/-- Property form: message i has full opacity and every other message has
opacity 0.3. -/
def SCExactlyVisible (c : SequenceController) (i : Nat) : Prop :=
  ∀ j m, c.messages.get? j = some m → m.opacity = (if j = i then "1" else "0.3")

-- ========================================
-- InteractiveDiagramController
-- ========================================

/-- An .interactive-node element: class list, the data-id and data-label
attributes, the text content of its first nested text element, and its
bounding box as reported by getBBox. -/
structure IDCNode where
  classes : List String
  dataId : Option String
  dataLabel : Option String
  textChild : Option String
  bboxX : Int
  bboxY : Int
  bboxWidth : Int
  deriving Repr, DecidableEq

/-- The tooltip overlay group: its own opacity, the opacities of its rect
and text children, the text content, and the translate transform once set. -/
structure IDCTooltip where
  opacity : String
  rectOpacity : String
  textOpacity : String
  text : String
  transform : Option (Int × Int)
  deriving Repr, DecidableEq

/-- The tooltip overlay as created by createTooltip: empty text, no
transform, no inline opacities. -/
def IDCTooltip.fresh : IDCTooltip :=
  { opacity := "", rectOpacity := "", textOpacity := "", text := "", transform := none }

/-- Resolved options record. -/
structure IDCOptions where
  showTooltip : Bool
  highlightConnections : Bool
  deriving Repr, DecidableEq

/-- The object-spread option merge: defaults showTooltip true and
highlightConnections true, each overridden when the caller supplied the
key. -/
def IDCOptions.resolve (showTooltip? highlightConnections? : Option Bool) : IDCOptions :=
  { showTooltip := showTooltip?.getD true
    highlightConnections := highlightConnections?.getD true }

/-- State of an InteractiveDiagramController instance. selectedNode is the
index of the currently selected node; events collects the CustomEvents
dispatched on the container (name, detail data-id). listeners counts
attached click, mouseenter and mouseleave listeners. -/
structure InteractiveDiagramController where
  svg : Bool
  nodes : List IDCNode
  connections : List (List String)
  selectedNode : Option Nat
  tooltip : Option IDCTooltip
  options : IDCOptions
  events : List (String × Option String)
  listeners : Nat
  deriving Repr, DecidableEq

/-- Constructor plus init: absent container returns before creating the
tooltip and before discovery; otherwise the tooltip is created when
showTooltip, elements are discovered and three listeners are attached per
node. -/
def InteractiveDiagramController.construct (found : Bool) (docNodes : List IDCNode)
    (docConns : List (List String)) (opts : IDCOptions) :
    InteractiveDiagramController :=
  if found then
    { svg := true
      nodes := docNodes
      connections := docConns
      selectedNode := none
      tooltip := if opts.showTooltip then some IDCTooltip.fresh else none
      options := opts
      events := []
      listeners := 3 * docNodes.length }
  else
    { svg := false, nodes := [], connections := [], selectedNode := none,
      tooltip := none, options := opts, events := [], listeners := 0 }

/-- onNodeClick on the node at index i: removes selected from the previous
selection when present, adds selected to the clicked node, records it as
selectedNode, marks every connection active when highlightConnections, and
dispatches a nodeSelected event carrying the data-id of the clicked node. -/
def InteractiveDiagramController.onNodeClick (i : Nat)
    (c : InteractiveDiagramController) : InteractiveDiagramController :=
  let nodes1 :=
    match c.selectedNode with
    | some j => modifyAt j (fun n => { n with classes := classRemove "selected" n.classes }) c.nodes
    | none => c.nodes
  let nodes2 := modifyAt i (fun n => { n with classes := classAdd "selected" n.classes }) nodes1
  let conns :=
    if c.options.highlightConnections then c.connections.map (classAdd "active")
    else c.connections
  { c with
    nodes := nodes2
    selectedNode := some i
    connections := conns
    events := c.events ++ [("nodeSelected", (c.nodes.get? i).bind (·.dataId))] }

/-- JS truthiness of a getAttribute or optional-chain result: false for
null, undefined and the empty string. -/
def jsTruthy : Option String → Bool
  | none => false
  | some s => s ≠ ""

/-- The label fallback chain of onNodeHover: data-label, else the text
content of the first nested text element, else the empty string (JS
short-circuiting logical or, which skips empty strings). -/
def IDCNode.hoverLabel (n : IDCNode) : String :=
  if jsTruthy n.dataLabel then n.dataLabel.getD ""
  else if jsTruthy n.textChild then n.textChild.getD ""
  else ""

/-- onNodeHover on the node at index i: when showTooltip and the tooltip
exists, writes the resolved label into the tooltip text, translates the
group next to the node bounding box (right plus 10, up 20), and sets the
group, rect and text opacities to 1. -/
def InteractiveDiagramController.onNodeHover (i : Nat)
    (c : InteractiveDiagramController) : InteractiveDiagramController :=
  if c.options.showTooltip then
    match c.tooltip, c.nodes.get? i with
    | some tt, some n =>
      { c with
        tooltip := some
          { tt with
            text := n.hoverLabel
            transform := some (n.bboxX + n.bboxWidth + 10, n.bboxY - 20)
            opacity := "1", rectOpacity := "1", textOpacity := "1" } }
    | _, _ => c
  else c

/-- onNodeLeave: when the tooltip exists, sets the group, rect and text
opacities to 0. -/
def InteractiveDiagramController.onNodeLeave
    (c : InteractiveDiagramController) : InteractiveDiagramController :=
  match c.tooltip with
  | some tt =>
    { c with tooltip := some { tt with opacity := "0", rectOpacity := "0", textOpacity := "0" } }
  | none => c

/-- getSelectedNode. -/
def InteractiveDiagramController.getSelectedNode
    (c : InteractiveDiagramController) : Option Nat :=
  c.selectedNode

/-- reset: removes selected from the selected node when present, clears the
stored selection, and removes active from every connection. -/
def InteractiveDiagramController.reset
    (c : InteractiveDiagramController) : InteractiveDiagramController :=
  let nodes1 :=
    match c.selectedNode with
    | some j => modifyAt j (fun n => { n with classes := classRemove "selected" n.classes }) c.nodes
    | none => c.nodes
  { c with
    nodes := nodes1
    selectedNode := none
    connections := c.connections.map (classRemove "active") }

/-- Property form: node i, and no other node, carries the selected class. -/
def IDCExactlySelected (c : InteractiveDiagramController) (i : Nat) : Prop :=
  ∀ j node, c.nodes.get? j = some node → (("selected" ∈ node.classes) ↔ j = i)

/-- Property form: no node carries the selected class and no selection is
stored (the state of a freshly constructed controller). -/
def IDCNoSelection (c : InteractiveDiagramController) : Prop :=
  c.selectedNode = none ∧
  ∀ j node, c.nodes.get? j = some node → "selected" ∉ node.classes

/-- Selection invariant: the stored selection and the selected class agree
(no selection and no marked node, or a stored index and exactly that node
marked). -/
def IDCSelInv (c : InteractiveDiagramController) : Prop :=
  match c.selectedNode with
  | none => ∀ j node, c.nodes.get? j = some node → "selected" ∉ node.classes
  | some a => IDCExactlySelected c a

-- ========================================
-- StateDiagramController
-- ========================================

/-- A .state-node element: class list and data-state-id attribute
(getAttribute returns null, modelled none, when absent). -/
structure StateNode where
  classes : List String
  dataStateId : Option String
  deriving Repr, DecidableEq

/-- A reference to a state element: either a discovered member of
this.states (by index) or an element from outside the controller. -/
inductive StateRef where
  | member (i : Nat)
  | outside (el : StateNode)
  deriving Repr, DecidableEq

/-- State of a StateDiagramController instance; events collects the stateId
payloads of the stateChanged CustomEvents dispatched on the container. -/
structure StateDiagramController where
  svg : Bool
  states : List StateNode
  currentState : Option StateRef
  events : List (Option String)
  listeners : Nat
  deriving Repr, DecidableEq

/-- Constructor plus init: absent container returns before discovery;
otherwise states are discovered and one click listener per state is
attached. -/
def StateDiagramController.construct (found : Bool) (docStates : List StateNode) :
    StateDiagramController :=
  if found then
    { svg := true, states := docStates, currentState := none, events := [],
      listeners := docStates.length }
  else
    { svg := false, states := [], currentState := none, events := [], listeners := 0 }

/-- transitionTo: removes active from every discovered state, adds active to
the argument element, records it as currentState, then dispatches a
stateChanged event carrying its data-state-id on this.svg — a member access
that throws a TypeError when the container was never found (this.svg is
null).  A member reference that is out of range models reading an undefined
array slot, whose classList access throws. -/
def StateDiagramController.transitionTo (ref : StateRef)
    (c : StateDiagramController) : Except String StateDiagramController :=
  let states1 := c.states.map fun s => { s with classes := classRemove "active" s.classes }
  match ref with
  | .member i =>
    match states1.get? i with
    | some st =>
      let states2 := states1.set i { st with classes := classAdd "active" st.classes }
      if c.svg then
        .ok { c with
              states := states2
              currentState := some (.member i)
              events := c.events ++ [st.dataStateId] }
      else .error "TypeError: cannot read dispatchEvent of null"
    | none => .error "TypeError: cannot read classList of undefined"
  | .outside el =>
    if c.svg then
      .ok { c with
            states := states1
            currentState := some (.outside { el with classes := classAdd "active" el.classes })
            events := c.events ++ [el.dataStateId] }
    else .error "TypeError: cannot read dispatchEvent of null"

/-- getCurrentState. -/
def StateDiagramController.getCurrentState (c : StateDiagramController) :
    Option StateRef :=
  c.currentState

/-- The default interval argument of playSequence. -/
def StateDiagramController.playSequenceDefaultInterval : Nat := 1500

/-- One setTimeout tick of playSequence: the index wraps to 0 once it has
passed the end of stateIds, the wrapped position is looked up among the
discovered states by strict equality of data-state-id, a hit transitions to
it (a miss changes nothing), the index advances, and setTimeout is invoked
again on every path (third component, always true). -/
def StateDiagramController.playTick (stateIds : List String) (index : Nat)
    (c : StateDiagramController) :
    Except String (StateDiagramController × Nat × Bool) :=
  let i := if stateIds.length ≤ index then 0 else index
  match listFindIdx (fun s => strictEqAttr s.dataStateId (stateIds.get? i)) c.states with
  | some j =>
    match StateDiagramController.transitionTo (.member j) c with
    | .ok c1 => .ok (c1, i + 1, true)
    | .error e => .error e
  | none => .ok (c, i + 1, true)

/-- State of the playSequence loop after k ticks, starting from index 0. -/
def StateDiagramController.playRun (stateIds : List String)
    (c : StateDiagramController) :
    Nat → Except String (StateDiagramController × Nat)
  | 0 => .ok (c, 0)
  | k + 1 =>
    match StateDiagramController.playRun stateIds c k with
    | .ok r =>
      match StateDiagramController.playTick stateIds r.2 r.1 with
      | .ok s => .ok (s.1, s.2.1)
      | .error e => .error e
    | .error e => .error e

/-- Property form: discovered state i, and no other discovered state,
carries the active class. -/
def SDExactlyActive (c : StateDiagramController) (i : Nat) : Prop :=
  ∀ j node, c.states.get? j = some node → (("active" ∈ node.classes) ↔ j = i)

-- ========================================
-- RefrigerationCycleController
-- ========================================

/-- State of a RefrigerationCycleController instance.  hasFlowPath records
whether the .refrigerant-flow query found an element (undefined when the
container is absent, since init returns before querying).  animationFrame
is the id last returned by requestAnimationFrame (null initially).  pending
is the not-yet-fired, not-cancelled scheduled callback: its request id and
the closure offset it will advance.  dashOffset is the last value written
to the flow path stroke-dashoffset.  nextId feeds fresh request ids
(browser ids start at 1, so the JS truthiness test on animationFrame is
isSome). -/
structure RefrigerationCycleController where
  hasFlowPath : Bool
  isAnimating : Bool
  animationFrame : Option Nat
  pending : Option (Nat × Nat)
  dashOffset : Option Nat
  nextId : Nat
  deriving Repr, DecidableEq

/-- Constructor plus init: absent container returns before querying the
sub-elements, leaving flowPath undefined; flags start false and null. -/
def RefrigerationCycleController.construct (found : Bool) (docHasFlowPath : Bool) :
    RefrigerationCycleController :=
  { hasFlowPath := if found then docHasFlowPath else false
    isAnimating := false
    animationFrame := none
    pending := none
    dashOffset := none
    nextId := 1 }

/-- The body of the animate closure, with o the closure offset before this
frame: when the controller is no longer animating or the flow path is
missing, the running flag is cleared and no frame is requested; otherwise
the offset advances by 2 modulo 100, is written to stroke-dashoffset, and
requestAnimationFrame schedules the next frame. -/
def RefrigerationCycleController.animateBody (o : Nat)
    (s : RefrigerationCycleController) : RefrigerationCycleController :=
  if !s.isAnimating || !s.hasFlowPath then { s with isAnimating := false }
  else
    let o1 := (o + 2) % 100
    { s with
      dashOffset := some o1
      animationFrame := some s.nextId
      pending := some (s.nextId, o1)
      nextId := s.nextId + 1 }

/-- startAnimation: returns at once when already animating; otherwise sets
the running flag, creates a fresh closure offset 0 and runs the animate
body synchronously. -/
def RefrigerationCycleController.startAnimation
    (s : RefrigerationCycleController) : RefrigerationCycleController :=
  if s.isAnimating then s
  else RefrigerationCycleController.animateBody 0 { s with isAnimating := true }

/-- The browser firing the scheduled frame callback: the pending callback is
consumed and its closure runs the animate body with its saved offset. -/
def RefrigerationCycleController.fireFrame
    (s : RefrigerationCycleController) : RefrigerationCycleController :=
  match s.pending with
  | some po => RefrigerationCycleController.animateBody po.2 { s with pending := none }
  | none => s

/-- cancelAnimationFrame on the stored id: removes the scheduled callback
whose request id matches; a stale id (already fired) cancels nothing. -/
def rcCancel (fid : Nat) : Option (Nat × Nat) → Option (Nat × Nat)
  | some po => if po.1 = fid then none else some po
  | none => none

/-- stopAnimation: clears the running flag, then, when animationFrame is
set (truthy), cancels that request id. -/
def RefrigerationCycleController.stopAnimation
    (s : RefrigerationCycleController) : RefrigerationCycleController :=
  let s1 := { s with isAnimating := false }
  match s1.animationFrame with
  | some fid => { s1 with pending := rcCancel fid s1.pending }
  | none => s1

/-- toggleAnimation: dispatches on the running flag. -/
def RefrigerationCycleController.toggleAnimation
    (s : RefrigerationCycleController) : RefrigerationCycleController :=
  if s.isAnimating then RefrigerationCycleController.stopAnimation s
  else RefrigerationCycleController.startAnimation s

/-- The operations a host can interleave on a RefrigerationCycleController:
its three public methods and the browser firing a scheduled frame. -/
inductive RCOp where
  | start
  | stop
  | toggle
  | frame
  deriving Repr, DecidableEq

/-- Apply one operation. -/
def RCOp.apply (op : RCOp) (s : RefrigerationCycleController) :
    RefrigerationCycleController :=
  match op with
  | .start => s.startAnimation
  | .stop => s.stopAnimation
  | .toggle => s.toggleAnimation
  | .frame => s.fireFrame

/-- The state reached from a freshly constructed controller by a sequence
of operations. -/
def rcRun (found docHasFlowPath : Bool) (ops : List RCOp) :
    RefrigerationCycleController :=
  ops.foldl (fun s op => op.apply s)
    (RefrigerationCycleController.construct found docHasFlowPath)

/-- Invariant of reachable RefrigerationCycleController states: a pending
frame callback carries the id last handed out by requestAnimationFrame and
an even closure offset below 100, and every value written to
stroke-dashoffset is an even number below 100. -/
def RCInv (s : RefrigerationCycleController) : Prop :=
  (∀ po : Nat × Nat, s.pending = some po →
    s.animationFrame = some po.1 ∧ po.2 % 2 = 0 ∧ po.2 < 100) ∧
  (∀ d, s.dashOffset = some d → d % 2 = 0 ∧ d < 100)

-- ========================================
-- Shared lemmas
-- ========================================

theorem mem_classAdd_iff (x c : String) (l : List String) :
    x ∈ classAdd c l ↔ x ∈ l ∨ x = c := by
  unfold classAdd
  split
  · next hc =>
    constructor
    · exact Or.inl
    · rintro (h | rfl)
      · exact h
      · exact hc
  · simp [List.mem_append]

theorem mem_classRemove_iff (x c : String) (l : List String) :
    x ∈ classRemove c l ↔ x ∈ l ∧ x ≠ c := by
  unfold classRemove
  simp [List.mem_filter]

theorem modifyAt_length (i : Nat) (f : α → α) (l : List α) :
    (modifyAt i f l).length = l.length := by
  unfold modifyAt
  split <;> simp

theorem modifyAt_get? (i : Nat) (f : α → α) (l : List α) (j : Nat) :
    (modifyAt i f l).get? j = if i = j then (l.get? j).map f else l.get? j := by
  unfold modifyAt
  cases h : l.get? i with
  | none =>
    by_cases hij : i = j
    · subst hij
      simp only [List.get?_eq_getElem?] at h ⊢
      simp [h]
    · simp [hij]
  | some x =>
    by_cases hij : i = j
    · subst hij
      simp only [List.get?_eq_getElem?] at h ⊢
      have hlt : i < l.length := by
        rcases List.getElem?_eq_some.mp h with ⟨hl, _⟩
        exact hl
      simp [List.getElem?_set, h, hlt]
    · simp only [List.get?_eq_getElem?] at h ⊢
      simp [List.getElem?_set, hij]

-- ========================================
-- FlowchartController lemmas (C4)
-- ========================================

theorem highlightStep_nodes_length (i : Nat) (c : FlowchartController) :
    (FlowchartController.highlightStep i c).nodes.length = c.nodes.length := by
  unfold FlowchartController.highlightStep
  simp [modifyAt_length]

theorem highlightStep_exactly (i : Nat) (c : FlowchartController) :
    FCExactlyHighlighted (FlowchartController.highlightStep i c) i := by
  intro j node hj
  simp only [FlowchartController.highlightStep, modifyAt_get?] at hj
  by_cases hij : i = j
  · subst hij
    rw [if_pos rfl] at hj
    cases horig : c.nodes.get? i with
    | none =>
      rw [List.get?_eq_getElem?, List.getElem?_map] at hj
      rw [List.get?_eq_getElem?] at horig
      simp [horig] at hj
    | some orig =>
      rw [List.get?_eq_getElem?, List.getElem?_map] at hj
      rw [List.get?_eq_getElem?] at horig
      rw [horig] at hj
      simp only [Option.map_some', Option.some.injEq] at hj
      subst hj
      simp [mem_classAdd_iff, mem_classRemove_iff]
  · rw [if_neg hij] at hj
    rw [List.get?_eq_getElem?, List.getElem?_map] at hj
    cases horig : c.nodes[j]? with
    | none => rw [horig] at hj; simp at hj
    | some orig =>
      rw [horig] at hj
      simp only [Option.map_some', Option.some.injEq] at hj
      subst hj
      have hji : ¬ j = i := fun h => hij h.symm
      simp [mem_classRemove_iff, hji]

theorem fc_playRun_eq (c : FlowchartController) :
    ∀ t, t ≤ c.nodes.length →
    ∃ s, FlowchartController.playRun c t = (s, t, true) ∧
      s.nodes.length = c.nodes.length ∧
      (∀ i, t = i + 1 → FCExactlyHighlighted s i) := by
  intro t
  induction t with
  | zero =>
    intro _
    exact ⟨c, rfl, rfl, by intro i hi; cases hi⟩
  | succ t ih =>
    intro h
    obtain ⟨s, hrun, hlen, _⟩ := ih (Nat.le_of_succ_le h)
    have ht : t < c.nodes.length := h
    have htick : FlowchartController.playTick t s =
        (FlowchartController.highlightStep t s, true) := by
      unfold FlowchartController.playTick
      rw [if_neg (by omega)]
    refine ⟨FlowchartController.highlightStep t s, ?_, ?_, ?_⟩
    · show FlowchartController.playRun c (t + 1) = _
      unfold FlowchartController.playRun
      rw [hrun]
      simp [htick]
    · rw [highlightStep_nodes_length, hlen]
    · intro i hi
      have : i = t := by omega
      subst this
      exact highlightStep_exactly i s

/-- C4: for a FlowchartController over a non-empty node list, playAnimation
highlights node 0, 1, ... in order, one node per 1000-unit interval tick,
the interval is cleared on the tick after the last node, and in the final
state exactly the last node carries the selected and node-highlighted
classes. -/
theorem flowchart_playAnimation_correct (c : FlowchartController)
    (h : 0 < c.nodes.length) :
    FlowchartController.playAnimationInterval = 1000 ∧
    (∀ t, t < c.nodes.length →
      FCExactlyHighlighted (FlowchartController.playRun c (t + 1)).1 t) ∧
    (FlowchartController.playRun c (c.nodes.length + 1)).2.2 = false ∧
    FCExactlyHighlighted (FlowchartController.playRun c (c.nodes.length + 1)).1
      (c.nodes.length - 1) := by
  refine ⟨rfl, ?_, ?_⟩
  · intro t ht
    obtain ⟨s, hrun, _, hchar⟩ := fc_playRun_eq c (t + 1) ht
    rw [hrun]
    exact hchar t rfl
  · obtain ⟨s, hrun, hlen, hchar⟩ := fc_playRun_eq c c.nodes.length le_rfl
    have htick : FlowchartController.playTick c.nodes.length s = (s, false) := by
      unfold FlowchartController.playTick
      rw [if_pos (by omega)]
    have hfinal : FlowchartController.playRun c (c.nodes.length + 1) =
        (s, c.nodes.length + 1, false) := by
      unfold FlowchartController.playRun
      rw [hrun]
      simp [htick]
    rw [hfinal]
    refine ⟨rfl, ?_⟩
    exact hchar (c.nodes.length - 1) (by omega)

/-- Witness for C4 at a concrete two-node flowchart. -/
theorem flowchart_playAnimation_correct_witness :
    FCExactlyHighlighted
      (FlowchartController.playRun
        (FlowchartController.construct true [⟨[], none⟩, ⟨[], none⟩] []) 3).1 1 :=
  (flowchart_playAnimation_correct
    (FlowchartController.construct true [⟨[], none⟩, ⟨[], none⟩] []) (by decide)).2.2.2

-- ========================================
-- SequenceController lemmas (C5)
-- ========================================

theorem seq_playTick_exactly (i : Nat) (c : SequenceController)
    (hi : i < c.messages.length) :
    (SequenceController.playTick i c).1.messages.length = c.messages.length ∧
    (SequenceController.playTick i c).2 = true ∧
    SCExactlyVisible (SequenceController.playTick i c).1 i := by
  unfold SequenceController.playTick
  rw [if_neg (by omega)]
  refine ⟨by simp, rfl, ?_⟩
  intro j m hm
  simp only at hm
  rw [List.get?_eq_getElem?, List.getElem?_map, List.getElem?_enum] at hm
  cases horig : c.messages[j]? with
  | none => rw [horig] at hm; simp at hm
  | some orig =>
    rw [horig] at hm
    simp only [Option.map_some', Option.some.injEq] at hm
    subst hm
    rfl

theorem sc_playRun_eq (c : SequenceController) :
    ∀ t, t ≤ c.messages.length →
    ∃ s, SequenceController.playRun c t = (s, t, true) ∧
      s.messages.length = c.messages.length ∧
      (∀ i, t = i + 1 → SCExactlyVisible s i) := by
  intro t
  induction t with
  | zero =>
    intro _
    exact ⟨c, rfl, rfl, by intro i hi; cases hi⟩
  | succ t ih =>
    intro h
    obtain ⟨s, hrun, hlen, _⟩ := ih (Nat.le_of_succ_le h)
    have ht : t < s.messages.length := by omega
    obtain ⟨hlen2, hlive, hvis⟩ := seq_playTick_exactly t s ht
    refine ⟨(SequenceController.playTick t s).1, ?_, by omega, ?_⟩
    · show SequenceController.playRun c (t + 1) = _
      unfold SequenceController.playRun
      rw [hrun]
      simp only [if_pos]
      cases htick : SequenceController.playTick t s with
      | mk s1 b =>
        rw [htick] at hlive
        simp at hlive
        subst hlive
        rfl
    · intro i hi
      have : i = t := by omega
      subst this
      exact hvis

/-- C5: during playSequence, the state reached after any positive number of
elapsed interval ticks has exactly one message at opacity 1 (the one whose
position equals the number of elapsed ticks minus one) and every other
message at opacity 0.3; and reset applied after playback completes restores
opacity 1 on every message. -/
theorem sequence_playSequence_opacity (c : SequenceController) :
    (∀ t, 0 < t → t ≤ c.messages.length →
      SCExactlyVisible (SequenceController.playRun c t).1 (t - 1)) ∧
    (∀ j m,
      (SequenceController.reset
        (SequenceController.playRun c (c.messages.length + 1)).1).messages.get? j = some m →
      m.opacity = "1") := by
  constructor
  · intro t ht hle
    obtain ⟨s, hrun, _, hvis⟩ := sc_playRun_eq c t hle
    rw [hrun]
    exact hvis (t - 1) (by omega)
  · intro j m hm
    unfold SequenceController.reset at hm
    simp only at hm
    rw [List.get?_eq_getElem?, List.getElem?_map] at hm
    cases horig : (SequenceController.playRun c (c.messages.length + 1)).1.messages[j]? with
    | none => rw [horig] at hm; simp at hm
    | some orig =>
      rw [horig] at hm
      simp only [Option.map_some', Option.some.injEq] at hm
      subst hm
      rfl

/-- Witness for C5 at a concrete two-message sequence diagram. -/
theorem sequence_playSequence_opacity_witness :
    SCExactlyVisible
      (SequenceController.playRun
        (SequenceController.construct true [⟨"1", "", "", none⟩, ⟨"1", "", "", none⟩] 0) 2).1 1 :=
  (sequence_playSequence_opacity
    (SequenceController.construct true [⟨"1", "", "", none⟩, ⟨"1", "", "", none⟩] 0)).1
    2 (by decide) (by decide)

-- ========================================
-- InteractiveDiagramController lemmas (C2, C8, C10)
-- ========================================

theorem idc_click_get?_of_none (c : InteractiveDiagramController)
    (hsel : c.selectedNode = none) (i j : Nat) :
    (c.onNodeClick i).nodes.get? j =
      (if i = j then
        (c.nodes.get? j).map
          (fun n : IDCNode => { n with classes := classAdd "selected" n.classes })
       else c.nodes.get? j) := by
  unfold InteractiveDiagramController.onNodeClick
  rw [hsel]
  simp only [modifyAt_get?]

theorem idc_click_get?_of_some (c : InteractiveDiagramController) (a : Nat)
    (hsel : c.selectedNode = some a) (i j : Nat) :
    (c.onNodeClick i).nodes.get? j =
      (if i = j then
        ((if a = j then
            (c.nodes.get? j).map
              (fun n : IDCNode => { n with classes := classRemove "selected" n.classes })
          else c.nodes.get? j)).map
          (fun n : IDCNode => { n with classes := classAdd "selected" n.classes })
       else
        (if a = j then
          (c.nodes.get? j).map
            (fun n : IDCNode => { n with classes := classRemove "selected" n.classes })
         else c.nodes.get? j)) := by
  unfold InteractiveDiagramController.onNodeClick
  rw [hsel]
  simp only [modifyAt_get?]

theorem idc_click_selectedNode (c : InteractiveDiagramController) (i : Nat) :
    (c.onNodeClick i).selectedNode = some i := by
  unfold InteractiveDiagramController.onNodeClick
  cases c.selectedNode <;> rfl

theorem idc_click_nodes_length (c : InteractiveDiagramController) (i : Nat) :
    (c.onNodeClick i).nodes.length = c.nodes.length := by
  unfold InteractiveDiagramController.onNodeClick
  cases c.selectedNode <;> simp [modifyAt_length]

theorem idc_selInv_click (c : InteractiveDiagramController) (i : Nat)
    (hinv : IDCSelInv c) :
    IDCExactlySelected (c.onNodeClick i) i ∧
    (c.onNodeClick i).selectedNode = some i ∧
    (c.onNodeClick i).nodes.length = c.nodes.length := by
  refine ⟨?_, idc_click_selectedNode c i, idc_click_nodes_length c i⟩
  intro j node hj
  unfold IDCSelInv at hinv
  cases hsel : c.selectedNode with
  | none =>
    rw [hsel] at hinv
    rw [idc_click_get?_of_none c hsel i j] at hj
    by_cases hij : i = j
    · subst hij
      rw [if_pos rfl] at hj
      cases horig : c.nodes.get? i with
      | none => rw [horig] at hj; simp at hj
      | some orig =>
        rw [horig] at hj
        simp only [Option.map_some', Option.some.injEq] at hj
        subst hj
        simp [mem_classAdd_iff]
    · rw [if_neg hij] at hj
      refine iff_of_false (hinv j node hj) (fun h => hij h.symm)
  | some a =>
    rw [hsel] at hinv
    rw [idc_click_get?_of_some c a hsel i j] at hj
    by_cases hij : i = j
    · subst hij
      rw [if_pos rfl] at hj
      by_cases haj : a = i
      · rw [if_pos haj] at hj
        cases horig : c.nodes.get? i with
        | none => rw [horig] at hj; simp at hj
        | some orig =>
          rw [horig] at hj
          simp only [Option.map_map, Option.map_some', Option.some.injEq] at hj
          subst hj
          simp [mem_classAdd_iff]
      · rw [if_neg haj] at hj
        cases horig : c.nodes.get? i with
        | none => rw [horig] at hj; simp at hj
        | some orig =>
          rw [horig] at hj
          simp only [Option.map_some', Option.some.injEq] at hj
          subst hj
          simp [mem_classAdd_iff]
    · rw [if_neg hij] at hj
      refine iff_of_false ?_ (fun h => hij h.symm)
      by_cases haj : a = j
      · rw [if_pos haj] at hj
        cases horig : c.nodes.get? j with
        | none => rw [horig] at hj; simp at hj
        | some orig =>
          rw [horig] at hj
          simp only [Option.map_some', Option.some.injEq] at hj
          subst hj
          simp [mem_classRemove_iff]
      · rw [if_neg haj] at hj
        intro hmem
        exact haj (((hinv j node hj).mp hmem)).symm

/-- C2: from a freshly constructed InteractiveDiagramController (no node
selected), clicking node A and then node B with A and B distinct leaves
exactly B carrying the selected class — A has lost it, and at no point
after a click are two nodes simultaneously selected — and getSelectedNode
afterwards returns B. -/
theorem interactive_click_selection (c : InteractiveDiagramController)
    (a b : Nat) (hclean : IDCNoSelection c) (_ha : a < c.nodes.length)
    (_hb : b < c.nodes.length) (hab : a ≠ b) :
    IDCExactlySelected (c.onNodeClick a) a ∧
    (c.onNodeClick a).getSelectedNode = some a ∧
    IDCExactlySelected ((c.onNodeClick a).onNodeClick b) b ∧
    ((c.onNodeClick a).onNodeClick b).getSelectedNode = some b ∧
    (∀ node, ((c.onNodeClick a).onNodeClick b).nodes.get? a = some node →
      "selected" ∉ node.classes) := by
  have hinv0 : IDCSelInv c := by
    unfold IDCSelInv
    rw [hclean.1]
    exact hclean.2
  obtain ⟨hexa, hsela, hlena⟩ := idc_selInv_click c a hinv0
  have hinv1 : IDCSelInv (c.onNodeClick a) := by
    unfold IDCSelInv
    rw [hsela]
    exact hexa
  obtain ⟨hexb, hselb, hlenb⟩ := idc_selInv_click (c.onNodeClick a) b hinv1
  refine ⟨hexa, hsela, hexb, hselb, ?_⟩
  intro node hnode hmem
  exact hab ((hexb a node hnode).mp hmem)

/-- Witness for C2 on a concrete two-node diagram. -/
theorem interactive_click_selection_witness :
    IDCExactlySelected
      (((InteractiveDiagramController.construct true
          [⟨[], none, none, none, 0, 0, 0⟩, ⟨[], none, none, none, 0, 0, 0⟩]
          [] (IDCOptions.resolve none none)).onNodeClick 0).onNodeClick 1) 1 := by
  refine (interactive_click_selection
    (InteractiveDiagramController.construct true
      [⟨[], none, none, none, 0, 0, 0⟩, ⟨[], none, none, none, 0, 0, 0⟩]
      [] (IDCOptions.resolve none none)) 0 1
    ⟨rfl, ?_⟩ (by decide) (by decide) (by decide)).2.2.1
  intro j node hj
  match j with
  | 0 =>
    simp only [InteractiveDiagramController.construct, if_pos] at hj
    cases hj
    decide
  | 1 =>
    simp only [InteractiveDiagramController.construct, if_pos] at hj
    cases hj
    decide
  | (n + 2) =>
    simp [InteractiveDiagramController.construct, List.get?] at hj

/-- C8: with highlightConnections enabled — which is the default produced
by the option merge when the caller supplies nothing — clicking any node
adds the active class to every connection element, regardless of which
node was clicked. -/
theorem interactive_click_highlights_all_connections :
    (IDCOptions.resolve none none).highlightConnections = true ∧
    ∀ (c : InteractiveDiagramController) (i : Nat),
      c.options.highlightConnections = true →
      ∀ cl, cl ∈ (c.onNodeClick i).connections → "active" ∈ cl := by
  refine ⟨rfl, ?_⟩
  intro c i hopt cl hcl
  unfold InteractiveDiagramController.onNodeClick at hcl
  rw [hopt] at hcl
  cases c.selectedNode <;>
    simp only [if_pos, List.mem_map] at hcl <;>
    · obtain ⟨x, _, hx⟩ := hcl
      rw [← hx]
      simp [mem_classAdd_iff]

/-- Witness for C8 on a concrete one-node, one-connection diagram with
default options. -/
theorem interactive_click_highlights_all_connections_witness :
    "active" ∈ ((InteractiveDiagramController.construct true
      [⟨[], none, none, none, 0, 0, 0⟩] [["conn"]]
      (IDCOptions.resolve none none)).onNodeClick 0).connections.headI :=
  interactive_click_highlights_all_connections.2
    (InteractiveDiagramController.construct true
      [⟨[], none, none, none, 0, 0, 0⟩] [["conn"]] (IDCOptions.resolve none none))
    0 rfl _ (by decide)

/-- C10: reset changes only the selection and the connections, never the
tooltip: options, events and the tooltip (visibility, position and text)
are untouched, so a tooltip shown by a preceding hover is still fully
visible, at the same position and with the same text, after reset. -/
theorem interactive_reset_preserves_tooltip (c : InteractiveDiagramController)
    (i : Nat) :
    (c.reset).tooltip = c.tooltip ∧
    (c.reset).options = c.options ∧
    (c.reset).events = c.events ∧
    ((c.onNodeHover i).reset).tooltip = (c.onNodeHover i).tooltip ∧
    (c.options.showTooltip = true → c.tooltip.isSome → i < c.nodes.length →
      ∃ tt node, c.nodes.get? i = some node ∧
        ((c.onNodeHover i).reset).tooltip = some tt ∧
        tt.opacity = "1" ∧ tt.rectOpacity = "1" ∧ tt.textOpacity = "1" ∧
        tt.text = node.hoverLabel ∧
        tt.transform = some (node.bboxX + node.bboxWidth + 10, node.bboxY - 20)) := by
  have hreset : ∀ d : InteractiveDiagramController,
      (d.reset).tooltip = d.tooltip ∧ (d.reset).options = d.options ∧
      (d.reset).events = d.events := by
    intro d
    unfold InteractiveDiagramController.reset
    cases d.selectedNode <;> exact ⟨rfl, rfl, rfl⟩
  refine ⟨(hreset c).1, (hreset c).2.1, (hreset c).2.2, (hreset _).1, ?_⟩
  intro hshow htt hi
  cases hnode : c.nodes.get? i with
  | none =>
    rw [List.get?_eq_getElem?] at hnode
    rw [List.getElem?_eq_none_iff] at hnode
    omega
  | some node =>
    cases htt2 : c.tooltip with
    | none => rw [htt2] at htt; simp at htt
    | some tt0 =>
      refine ⟨{ tt0 with
          text := node.hoverLabel
          transform := some (node.bboxX + node.bboxWidth + 10, node.bboxY - 20)
          opacity := "1", rectOpacity := "1", textOpacity := "1" },
        node, rfl, ?_, rfl, rfl, rfl, rfl, rfl⟩
      rw [(hreset _).1]
      unfold InteractiveDiagramController.onNodeHover
      rw [hshow, htt2, hnode]
      rfl

/-- Witness for C10 on a concrete one-node diagram with the tooltip shown. -/
theorem interactive_reset_preserves_tooltip_witness :
    ∃ tt node,
      (InteractiveDiagramController.construct true
        [⟨[], none, some "Label", none, 1, 2, 3⟩] [] (IDCOptions.resolve none none)).nodes.get? 0 =
        some node ∧
      ((((InteractiveDiagramController.construct true
        [⟨[], none, some "Label", none, 1, 2, 3⟩] [] (IDCOptions.resolve none none))).onNodeHover 0).reset).tooltip =
        some tt ∧
      tt.opacity = "1" ∧ tt.rectOpacity = "1" ∧ tt.textOpacity = "1" ∧
      tt.text = node.hoverLabel ∧
      tt.transform = some (node.bboxX + node.bboxWidth + 10, node.bboxY - 20) :=
  (interactive_reset_preserves_tooltip
    (InteractiveDiagramController.construct true
      [⟨[], none, some "Label", none, 1, 2, 3⟩] [] (IDCOptions.resolve none none)) 0).2.2.2.2
    rfl (by decide) (by decide)

-- ========================================
-- StateDiagramController lemmas (C3, C6)
-- ========================================

theorem listFindIdx_lt_length (p : α → Bool) :
    ∀ (l : List α) (j : Nat), listFindIdx p l = some j → j < l.length := by
  intro l
  induction l with
  | nil => intro j h; cases h
  | cons x xs ih =>
    intro j h
    unfold listFindIdx at h
    by_cases hp : p x
    · rw [if_pos hp] at h
      cases h
      simp
    · rw [if_neg hp] at h
      cases hfind : listFindIdx p xs with
      | none => rw [hfind] at h; cases h
      | some j0 =>
        rw [hfind] at h
        simp only [Option.map_some', Option.some.injEq] at h
        subst h
        have := ih j0 hfind
        simp
        omega

theorem sd_transitionTo_member (c : StateDiagramController) (i : Nat)
    (hsvg : c.svg = true) (hi : i < c.states.length) :
    ∃ s1 st, c.states.get? i = some st ∧
      StateDiagramController.transitionTo (.member i) c = .ok s1 ∧
      s1.svg = true ∧ s1.states.length = c.states.length ∧
      s1.currentState = some (.member i) ∧
      s1.events = c.events ++ [st.dataStateId] ∧
      SDExactlyActive s1 i ∧
      (∀ j node, s1.states.get? j = some node →
        ∃ orig, c.states.get? j = some orig ∧ node.dataStateId = orig.dataStateId) := by
  cases horig : c.states.get? i with
  | none =>
    rw [List.get?_eq_getElem?, List.getElem?_eq_none_iff] at horig
    omega
  | some st =>
    have hmap : (c.states.map fun s =>
        { s with classes := classRemove "active" s.classes }).get? i =
        some { st with classes := classRemove "active" st.classes } := by
      rw [List.get?_eq_getElem?, List.getElem?_map]
      rw [List.get?_eq_getElem?] at horig
      rw [horig]
      rfl
    refine ⟨{ c with
        states := (c.states.map fun s =>
            { s with classes := classRemove "active" s.classes }).set i
          { st with classes := classAdd "active" (classRemove "active" st.classes) }
        currentState := some (.member i)
        events := c.events ++ [st.dataStateId] }, st, rfl, ?_, hsvg, ?_, rfl, rfl, ?_, ?_⟩
    · unfold StateDiagramController.transitionTo
      simp only [hmap, hsvg, if_true]
    · simp
    · intro j node hj
      simp only at hj
      rw [List.get?_eq_getElem?, List.getElem?_set] at hj
      by_cases hij : i = j
      · rw [if_pos hij] at hj
        rw [if_pos (by simpa [← hij] using hi)] at hj
        cases hj
        simp [mem_classAdd_iff]
        omega
      · rw [if_neg hij] at hj
        rw [List.getElem?_map] at hj
        cases ho : c.states[j]? with
        | none => rw [ho] at hj; cases hj
        | some orig =>
          rw [ho] at hj
          simp only [Option.map_some', Option.some.injEq] at hj
          subst hj
          refine iff_of_false ?_ (fun h => hij h.symm)
          simp [mem_classRemove_iff]
    · intro j node hj
      simp only at hj
      rw [List.get?_eq_getElem?, List.getElem?_set] at hj
      by_cases hij : i = j
      · rw [if_pos hij] at hj
        rw [if_pos (by simpa [← hij] using hi)] at hj
        cases hj
        subst hij
        exact ⟨st, horig, rfl⟩
      · rw [if_neg hij] at hj
        rw [List.getElem?_map] at hj
        cases ho : c.states[j]? with
        | none => rw [ho] at hj; cases hj
        | some orig =>
          rw [ho] at hj
          simp only [Option.map_some', Option.some.injEq] at hj
          subst hj
          exact ⟨orig, by rw [List.get?_eq_getElem?, ho], rfl⟩

/-- C6: with the container present, calling transitionTo twice in a row on
the discovered state element at index i succeeds both times, leaves exactly
that state element marked active after each call, records it as the current
state, and dispatches exactly one stateChanged event per call carrying its
data-state-id. -/
theorem state_transitionTo_twice (c : StateDiagramController) (i : Nat)
    (hsvg : c.svg = true) (hi : i < c.states.length) :
    ∃ s1 s2 st,
      c.states.get? i = some st ∧
      StateDiagramController.transitionTo (.member i) c = .ok s1 ∧
      StateDiagramController.transitionTo (.member i) s1 = .ok s2 ∧
      SDExactlyActive s1 i ∧ SDExactlyActive s2 i ∧
      s1.currentState = some (.member i) ∧
      s2.currentState = some (.member i) ∧
      s1.events = c.events ++ [st.dataStateId] ∧
      s2.events = c.events ++ [st.dataStateId, st.dataStateId] := by
  obtain ⟨s1, st, horig, h1, hsvg1, hlen1, hcur1, hev1, hact1, hid1⟩ :=
    sd_transitionTo_member c i hsvg hi
  obtain ⟨s2, st2, horig2, h2, _, _, hcur2, hev2, hact2, _⟩ :=
    sd_transitionTo_member s1 i hsvg1 (by omega)
  obtain ⟨orig, horig3, hsid⟩ := hid1 i st2 horig2
  rw [horig] at horig3
  injection horig3 with he
  subst he
  refine ⟨s1, s2, st, horig, h1, h2, hact1, hact2, hcur1, hcur2, hev1, ?_⟩
  rw [hev2, hev1, hsid]
  simp

/-- Witness for C6 on a concrete two-state diagram. -/
theorem state_transitionTo_twice_witness :
    ∃ s1 s2 st,
      (StateDiagramController.construct true
        [⟨[], some "on"⟩, ⟨[], some "off"⟩]).states.get? 1 = some st ∧
      StateDiagramController.transitionTo (.member 1)
        (StateDiagramController.construct true [⟨[], some "on"⟩, ⟨[], some "off"⟩]) = .ok s1 ∧
      StateDiagramController.transitionTo (.member 1) s1 = .ok s2 ∧
      SDExactlyActive s1 1 ∧ SDExactlyActive s2 1 ∧
      s1.currentState = some (.member 1) ∧
      s2.currentState = some (.member 1) ∧
      s1.events = (StateDiagramController.construct true
        [⟨[], some "on"⟩, ⟨[], some "off"⟩]).events ++ [st.dataStateId] ∧
      s2.events = (StateDiagramController.construct true
        [⟨[], some "on"⟩, ⟨[], some "off"⟩]).events ++ [st.dataStateId, st.dataStateId] :=
  state_transitionTo_twice
    (StateDiagramController.construct true [⟨[], some "on"⟩, ⟨[], some "off"⟩])
    1 rfl (by decide)

theorem sd_wrap_mod (n k : Nat) (hn : 0 < n) :
    (if n ≤ k % n + 1 then 0 else k % n + 1) = (k + 1) % n := by
  have hlt : k % n < n := Nat.mod_lt _ hn
  have hmod : (k % n + 1) % n = (k + 1) % n := Nat.mod_add_mod k n 1
  by_cases hc : k % n + 1 = n
  · rw [if_pos (by omega), ← hmod, hc, Nat.mod_self]
  · rw [if_neg (by omega), ← hmod]
    exact (Nat.mod_eq_of_lt (by omega)).symm

theorem sd_playTick_ok (c : StateDiagramController) (stateIds : List String)
    (idx : Nat) (hsvg : c.svg = true) :
    ∃ c1, StateDiagramController.playTick stateIds idx c =
        .ok (c1, (if stateIds.length ≤ idx then 0 else idx) + 1, true) ∧
      c1.svg = true ∧ c1.states.length = c.states.length ∧
      (listFindIdx (fun s => strictEqAttr s.dataStateId
          (stateIds.get? (if stateIds.length ≤ idx then 0 else idx))) c.states = none →
        c1 = c) := by
  cases hfind : listFindIdx (fun s => strictEqAttr s.dataStateId
      (stateIds.get? (if stateIds.length ≤ idx then 0 else idx))) c.states with
  | none =>
    refine ⟨c, ?_, hsvg, rfl, fun _ => rfl⟩
    simp only [StateDiagramController.playTick]
    rw [hfind]
  | some j =>
    have hj : j < c.states.length := listFindIdx_lt_length _ c.states j hfind
    obtain ⟨s1, st, _, htrans, hsvg1, hlen1, _, _, _, _⟩ :=
      sd_transitionTo_member c j hsvg hj
    refine ⟨s1, ?_, hsvg1, hlen1, ?_⟩
    · simp only [StateDiagramController.playTick]
      rw [hfind]
      simp only [htrans]
    · intro hnone
      exact Option.noConfusion hnone

theorem sd_playRun_ok (c : StateDiagramController) (stateIds : List String)
    (hsvg : c.svg = true) (hn : 0 < stateIds.length) :
    ∀ k, ∃ ck ik, StateDiagramController.playRun stateIds c k = .ok (ck, ik) ∧
      ck.svg = true ∧ ck.states.length = c.states.length ∧
      (if stateIds.length ≤ ik then 0 else ik) = k % stateIds.length := by
  intro k
  induction k with
  | zero =>
    refine ⟨c, 0, rfl, hsvg, rfl, ?_⟩
    rw [if_neg (by omega), Nat.zero_mod]
  | succ k ih =>
    obtain ⟨ck, ik, hrun, hsvgk, hlenk, hik⟩ := ih
    obtain ⟨c1, htick, hsvg1, hlen1, _⟩ := sd_playTick_ok ck stateIds ik hsvgk
    refine ⟨c1, (if stateIds.length ≤ ik then 0 else ik) + 1, ?_, hsvg1, by omega, ?_⟩
    · show StateDiagramController.playRun stateIds c (k + 1) = _
      unfold StateDiagramController.playRun
      rw [hrun]
      simp only [htick]
    · rw [hik]
      exact sd_wrap_mod stateIds.length k hn

/-- C3: with the container present and a non-empty id list, every tick of
the playSequence loop succeeds, consults position k modulo the list length
at tick k (the list is stepped in order and the position wraps past the
end), always schedules the following tick (the final true component), and
when the consulted identifier matches no discovered state the tick leaves
the controller unchanged while the cycle still continues. -/
theorem state_playSequence_cycles (c : StateDiagramController)
    (stateIds : List String) (hsvg : c.svg = true) (hn : 0 < stateIds.length)
    (k : Nat) :
    ∃ ck ik, StateDiagramController.playRun stateIds c k = .ok (ck, ik) ∧
      (if stateIds.length ≤ ik then 0 else ik) = k % stateIds.length ∧
      (∃ r, StateDiagramController.playTick stateIds ik ck =
        .ok (r, k % stateIds.length + 1, true)) ∧
      (listFindIdx (fun s => strictEqAttr s.dataStateId
          (stateIds.get? (k % stateIds.length))) ck.states = none →
        StateDiagramController.playTick stateIds ik ck =
          .ok (ck, k % stateIds.length + 1, true)) := by
  obtain ⟨ck, ik, hrun, hsvgk, hlenk, hik⟩ := sd_playRun_ok c stateIds hsvg hn k
  obtain ⟨c1, htick, _, _, hmiss⟩ := sd_playTick_ok ck stateIds ik hsvgk
  rw [hik] at htick hmiss
  refine ⟨ck, ik, hrun, hik, ⟨c1, htick⟩, ?_⟩
  intro hnone
  rw [htick, hmiss hnone]

/-- Witness for C3 on a concrete diagram, a two-identifier list and three
elapsed ticks. -/
theorem state_playSequence_cycles_witness :
    ∃ ck ik, StateDiagramController.playRun ["on", "missing"]
        (StateDiagramController.construct true [⟨[], some "on"⟩]) 3 = .ok (ck, ik) ∧
      (if (["on", "missing"] : List String).length ≤ ik then 0 else ik) =
        3 % (["on", "missing"] : List String).length ∧
      (∃ r, StateDiagramController.playTick ["on", "missing"] ik ck =
        .ok (r, 3 % (["on", "missing"] : List String).length + 1, true)) ∧
      (listFindIdx (fun s => strictEqAttr s.dataStateId
          ((["on", "missing"] : List String).get?
            (3 % (["on", "missing"] : List String).length))) ck.states = none →
        StateDiagramController.playTick ["on", "missing"] ik ck =
          .ok (ck, 3 % (["on", "missing"] : List String).length + 1, true)) :=
  state_playSequence_cycles
    (StateDiagramController.construct true [⟨[], some "on"⟩])
    ["on", "missing"] rfl (by decide) 3

-- ========================================
-- RefrigerationCycleController lemmas (C7, C9)
-- ========================================

theorem rcInv_construct (found hfp : Bool) :
    RCInv (RefrigerationCycleController.construct found hfp) := by
  refine ⟨?_, ?_⟩ <;> intro x hx <;> cases hx

theorem rcInv_animateBody (o : Nat) (s : RefrigerationCycleController)
    (ho : o % 2 = 0) (h : RCInv s) :
    RCInv (RefrigerationCycleController.animateBody o s) := by
  unfold RefrigerationCycleController.animateBody
  split
  · exact ⟨fun po hpo => h.1 po hpo, fun d hd => h.2 d hd⟩
  · constructor
    · intro po hpo
      cases hpo
      refine ⟨rfl, ?_, Nat.mod_lt _ (by omega)⟩
      rw [Nat.mod_mod_of_dvd _ (by norm_num), Nat.add_mod, ho]
    · intro d hd
      cases hd
      refine ⟨?_, Nat.mod_lt _ (by omega)⟩
      rw [Nat.mod_mod_of_dvd _ (by norm_num), Nat.add_mod, ho]

theorem rc_stop_state (s : RefrigerationCycleController) (h : RCInv s) :
    (s.stopAnimation).isAnimating = false ∧ (s.stopAnimation).pending = none ∧
    (s.stopAnimation).dashOffset = s.dashOffset := by
  unfold RefrigerationCycleController.stopAnimation rcCancel
  cases hp : s.pending with
  | none =>
    cases hfr : s.animationFrame <;> simp [hfr, hp]
  | some po =>
    have hfr : s.animationFrame = some po.1 := (h.1 po hp).1
    simp [hfr, hp]

theorem rcInv_apply (op : RCOp) (s : RefrigerationCycleController)
    (h : RCInv s) : RCInv (op.apply s) := by
  have hstart : RCInv s.startAnimation := by
    unfold RefrigerationCycleController.startAnimation
    split
    · exact h
    · exact rcInv_animateBody 0 _ rfl ⟨fun po hpo => h.1 po hpo, fun d hd => h.2 d hd⟩
  have hstop : RCInv s.stopAnimation := by
    obtain ⟨_, h2, h3⟩ := rc_stop_state s h
    constructor
    · intro po hpo
      rw [h2] at hpo
      exact Option.noConfusion hpo
    · intro d hd
      rw [h3] at hd
      exact h.2 d hd
  cases op with
  | start => exact hstart
  | stop => exact hstop
  | toggle =>
    show RCInv s.toggleAnimation
    unfold RefrigerationCycleController.toggleAnimation
    split
    · exact hstop
    · exact hstart
  | frame =>
    show RCInv s.fireFrame
    unfold RefrigerationCycleController.fireFrame
    cases hp : s.pending with
    | none => exact h
    | some po =>
      refine rcInv_animateBody po.2 _ (h.1 po hp).2.1 ⟨?_, fun d hd => h.2 d hd⟩
      intro q hq
      exact Option.noConfusion hq

theorem rcInv_run (found hfp : Bool) (ops : List RCOp) :
    RCInv (rcRun found hfp ops) := by
  unfold rcRun
  have hgen : ∀ (l : List RCOp) (s : RefrigerationCycleController),
      RCInv s → RCInv (l.foldl (fun s op => op.apply s) s) := by
    intro l
    induction l with
    | nil => exact fun s h => h
    | cons op rest ih =>
      intro s h
      exact ih _ (rcInv_apply op s h)
  exact hgen ops _ (rcInv_construct found hfp)

theorem rc_stop_clears_flag (t : RefrigerationCycleController) :
    (t.stopAnimation).isAnimating = false := by
  unfold RefrigerationCycleController.stopAnimation
  cases h : t.animationFrame <;> simp [h]

theorem rc_start_of_animating (t : RefrigerationCycleController)
    (h : t.isAnimating = true) : t.startAnimation = t := by
  unfold RefrigerationCycleController.startAnimation
  rw [if_pos h]

theorem rc_start_no_path (s : RefrigerationCycleController)
    (ha : s.isAnimating = false) (hp : s.hasFlowPath = false) :
    s.startAnimation = s := by
  cases s with
  | mk hfp ia af pe da ni =>
    simp only at ha hp
    subst ha
    subst hp
    rfl

theorem rc_start_idem (s : RefrigerationCycleController) :
    s.startAnimation.startAnimation = s.startAnimation := by
  cases hia : s.isAnimating with
  | true =>
    rw [rc_start_of_animating s hia, rc_start_of_animating s hia]
  | false =>
    cases hfp : s.hasFlowPath with
    | false => rw [rc_start_no_path s hia hfp, rc_start_no_path s hia hfp]
    | true =>
      refine rc_start_of_animating _ ?_
      unfold RefrigerationCycleController.startAnimation
        RefrigerationCycleController.animateBody
      simp [hia, hfp]

/-- C7: startAnimation is a no-op while the animation is already running
(in particular starting twice equals starting once, so no second concurrent
frame loop is scheduled), and stopAnimation on any reachable state clears
the running flag and cancels the pending frame callback, so isAnimating is
false and no callback remains scheduled immediately after it returns. -/
theorem refrigeration_start_idempotent_stop_clears
    (s : RefrigerationCycleController) (found hfp : Bool) (ops : List RCOp) :
    (∀ t : RefrigerationCycleController, t.isAnimating = true →
      t.startAnimation = t) ∧
    s.startAnimation.startAnimation = s.startAnimation ∧
    (∀ t : RefrigerationCycleController, (t.stopAnimation).isAnimating = false) ∧
    ((rcRun found hfp ops).stopAnimation).pending = none := by
  refine ⟨rc_start_of_animating, rc_start_idem s, rc_stop_clears_flag, ?_⟩
  exact (rc_stop_state _ (rcInv_run found hfp ops)).2.1

/-- Witness for C7: a running concrete controller is unchanged by a second
startAnimation. -/
theorem refrigeration_start_idempotent_stop_clears_witness :
    (rcRun true true [RCOp.start]).startAnimation = rcRun true true [RCOp.start] :=
  (refrigeration_start_idempotent_stop_clears
    (RefrigerationCycleController.construct true true) true true []).1
    (rcRun true true [RCOp.start]) (by decide)

/-- C9: every value the animation ever writes to the flow path
stroke-dashoffset is an even number in [0, 100): the closure counter starts
at 0, the first frame (run synchronously by startAnimation) writes
(0 + 2) % 100, and each fired frame advances the saved counter by exactly 2
modulo 100 before writing it. -/
theorem refrigeration_dash_offset_even (found hfp : Bool) (ops : List RCOp)
    (s : RefrigerationCycleController) (fid o : Nat) :
    (∀ d, (rcRun found hfp ops).dashOffset = some d → d % 2 = 0 ∧ d < 100) ∧
    (s.isAnimating = false → s.hasFlowPath = true →
      (s.startAnimation).dashOffset = some ((0 + 2) % 100)) ∧
    (s.pending = some (fid, o) → s.isAnimating = true → s.hasFlowPath = true →
      (s.fireFrame).dashOffset = some ((o + 2) % 100)) := by
  refine ⟨(rcInv_run found hfp ops).2, ?_, ?_⟩
  · intro ha hp
    unfold RefrigerationCycleController.startAnimation
      RefrigerationCycleController.animateBody
    simp [ha, hp]
  · intro hpend ha hp
    unfold RefrigerationCycleController.fireFrame
      RefrigerationCycleController.animateBody
    rw [hpend]
    simp [ha, hp]

/-- Witness for C9: after one start and the pending frame firing, the
written dash offset is (2 + 2) % 100. -/
theorem refrigeration_dash_offset_even_witness :
    ((rcRun true true [RCOp.start]).fireFrame).dashOffset = some ((2 + 2) % 100) :=
  (refrigeration_dash_offset_even true true [RCOp.start]
    (rcRun true true [RCOp.start]) 1 2).2.2 (by decide) (by decide) (by decide)

-- ========================================
-- Inert construction lemmas (C1)
-- ========================================

theorem fc_playRun_inert (ns : List FlowNode) (cs : List (List String)) :
    ∀ t, FlowchartController.playRun (FlowchartController.construct false ns cs) t =
      if t = 0 then (FlowchartController.construct false ns cs, 0, true)
      else (FlowchartController.construct false ns cs, 1, false) := by
  intro t
  induction t with
  | zero => rfl
  | succ t ih =>
    cases t with
    | zero => rfl
    | succ t0 =>
      show FlowchartController.playRun _ (t0 + 1 + 1) = _
      unfold FlowchartController.playRun
      rw [ih]
      rw [if_neg (Nat.succ_ne_zero t0)]
      rfl

theorem sc_playRun_inert (ms : List SeqMessage) (da : Nat) :
    ∀ t, SequenceController.playRun (SequenceController.construct false ms da) t =
      if t = 0 then (SequenceController.construct false ms da, 0, true)
      else (SequenceController.construct false ms da, 1, false) := by
  intro t
  induction t with
  | zero => rfl
  | succ t ih =>
    cases t with
    | zero => rfl
    | succ t0 =>
      show SequenceController.playRun _ (t0 + 1 + 1) = _
      unfold SequenceController.playRun
      rw [ih]
      rw [if_neg (Nat.succ_ne_zero t0)]
      rfl

theorem sd_playRun_inert (ds : List StateNode) (stateIds : List String) :
    ∀ k, ∃ ik, StateDiagramController.playRun stateIds
      (StateDiagramController.construct false ds) k =
      .ok (StateDiagramController.construct false ds, ik) := by
  intro k
  induction k with
  | zero => exact ⟨0, rfl⟩
  | succ k ih =>
    obtain ⟨ik, hrun⟩ := ih
    refine ⟨(if stateIds.length ≤ ik then 0 else ik) + 1, ?_⟩
    show StateDiagramController.playRun _ _ (k + 1) = _
    unfold StateDiagramController.playRun
    rw [hrun]
    rfl

/-- C1 counterexample: the claim that every public method of an inert
controller can be called without throwing is false — transitionTo on a
StateDiagramController whose container was not found throws a TypeError,
because it dispatches the stateChanged CustomEvent on the null container. -/
theorem state_transitionTo_inert_throws :
    StateDiagramController.transitionTo (.outside ⟨[], some "s1"⟩)
      (StateDiagramController.construct false []) =
      .error "TypeError: cannot read dispatchEvent of null" := rfl

/-- C1 (amended): constructing any of the five controllers with a container
id that matches no element leaves the instance inert — no event listeners
attached, and the public methods playAnimation, reset, playSequence,
getSelectedNode, getCurrentState, startAnimation, stopAnimation and
toggleAnimation run without throwing and leave the instance unchanged —
with the single exception of StateDiagramController.transitionTo, which on
an inert instance always throws a TypeError (dispatching on the null
container for any element argument, or reading classList of undefined for
an out-of-range member reference). -/
theorem controllers_inert_construction
    (docNodes : List FlowNode) (docConns : List (List String))
    (docMsgs : List SeqMessage) (docActors : Nat)
    (idocNodes : List IDCNode) (idocConns : List (List String)) (opts : IDCOptions)
    (docStates : List StateNode) (docHasFlowPath : Bool) :
    (FlowchartController.construct false docNodes docConns).listeners = 0 ∧
    (∀ t, (FlowchartController.playRun
        (FlowchartController.construct false docNodes docConns) t).1 =
      FlowchartController.construct false docNodes docConns) ∧
    FlowchartController.reset (FlowchartController.construct false docNodes docConns) =
      FlowchartController.construct false docNodes docConns ∧
    (SequenceController.construct false docMsgs docActors).listeners = 0 ∧
    (∀ t, (SequenceController.playRun
        (SequenceController.construct false docMsgs docActors) t).1 =
      SequenceController.construct false docMsgs docActors) ∧
    SequenceController.reset (SequenceController.construct false docMsgs docActors) =
      SequenceController.construct false docMsgs docActors ∧
    (InteractiveDiagramController.construct false idocNodes idocConns opts).listeners = 0 ∧
    (InteractiveDiagramController.construct false idocNodes idocConns opts).tooltip = none ∧
    (InteractiveDiagramController.construct false idocNodes idocConns opts).getSelectedNode =
      none ∧
    InteractiveDiagramController.reset
        (InteractiveDiagramController.construct false idocNodes idocConns opts) =
      InteractiveDiagramController.construct false idocNodes idocConns opts ∧
    (StateDiagramController.construct false docStates).listeners = 0 ∧
    (StateDiagramController.construct false docStates).getCurrentState = none ∧
    (∀ stateIds k, ∃ ik, StateDiagramController.playRun stateIds
        (StateDiagramController.construct false docStates) k =
      .ok (StateDiagramController.construct false docStates, ik)) ∧
    (∀ el, StateDiagramController.transitionTo (.outside el)
        (StateDiagramController.construct false docStates) =
      .error "TypeError: cannot read dispatchEvent of null") ∧
    (∀ i, StateDiagramController.transitionTo (.member i)
        (StateDiagramController.construct false docStates) =
      .error "TypeError: cannot read classList of undefined") ∧
    (RefrigerationCycleController.construct false docHasFlowPath).startAnimation =
      RefrigerationCycleController.construct false docHasFlowPath ∧
    (RefrigerationCycleController.construct false docHasFlowPath).stopAnimation =
      RefrigerationCycleController.construct false docHasFlowPath ∧
    (RefrigerationCycleController.construct false docHasFlowPath).toggleAnimation =
      RefrigerationCycleController.construct false docHasFlowPath := by
  refine ⟨rfl, ?_, rfl, rfl, ?_, rfl, rfl, rfl, rfl, rfl, rfl, rfl, ?_, ?_, ?_, rfl, rfl, rfl⟩
  · intro t
    rw [fc_playRun_inert docNodes docConns t]
    by_cases ht : t = 0
    · rw [if_pos ht]
    · rw [if_neg ht]
  · intro t
    rw [sc_playRun_inert docMsgs docActors t]
    by_cases ht : t = 0
    · rw [if_pos ht]
    · rw [if_neg ht]
  · exact sd_playRun_inert docStates
  · intro el
    rfl
  · intro i
    unfold StateDiagramController.transitionTo
    rfl

end Diagrams
